import Mathlib

/-!
Verification model of the live surgery monitoring service
(`app/services/live_surgery.py`, class `LiveSurgeryService`).

The Python code is shallowly embedded: pure fragments become Lean
functions, the mutable session fields become an explicit state record,
and Python operations that can raise (list indexing, `int()` conversion,
calls to undefined attributes) are modelled in `Except Unit`.  Python
`int` is modelled by `Int`; byte strings (frames) are modelled by opaque
`Nat` identifiers, since the service never inspects frame contents.
-/

namespace LiveSurgery

/-! ## Character level helpers

Python `re` with `str` patterns uses Unicode classes; all inputs handled
by this service are ASCII, and the model fixes the ASCII meaning of
`\s` and `\d`. -/

/-- ASCII whitespace, the characters matched by the regex class `\s`. -/
def isWs (c : Char) : Bool :=
  c = ' ' || c = '\t' || c = '\n' || c = '\r' || c = '\x0b' || c = '\x0c'

/-- ASCII digit, the characters matched by the regex class `\d`. -/
def isPyDigit (c : Char) : Bool :=
  '0' ≤ c && c ≤ '9'

/-- Exact list-of-characters starts-with test. -/
def startsWithL : List Char → List Char → Bool
  | [], _ => true
  | _ :: _, [] => false
  | p :: ps, c :: cs => p = c && startsWithL ps cs

/-- Case-insensitive starts-with test (the pattern is given lowercased). -/
def startsWithCI : List Char → List Char → Bool
  | [], _ => true
  | _ :: _, [] => false
  | p :: ps, c :: cs => p = c.toLower && startsWithCI ps cs

/-- Exact substring containment, Python `pat in s`. -/
def hasSub (pat : List Char) : List Char → Bool
  | [] => pat.isEmpty
  | c :: rest => startsWithL pat (c :: rest) || hasSub pat rest

/-- Does the (lowercased) label occur, case-insensitively, anywhere in `s`? -/
def labelOccurs (lbl : List Char) : List Char → Bool
  | [] => false
  | c :: rest => startsWithCI lbl (c :: rest) || labelOccurs lbl rest

/-- `re.search` driver: try the pattern-at-position matcher `f` at every
start position from the left and return the first success, the leftmost
match semantics of the Python engine. -/
def reSearch (f : List Char → Option α) : List Char → Option α
  | [] => none
  | c :: rest =>
    match f (c :: rest) with
    | some a => some a
    | none => reSearch f rest

/-- Numeric value of a digit run, as computed by Python `int` on it. -/
def pyDigitsToNat (ds : List Char) : Nat :=
  ds.foldl (fun a c => a * 10 + (c.toNat - '0'.toNat)) 0

/-- Python `int(s)`: raises unless `s` is a nonempty digit string
(signs and spaces never occur in the runs handed to it here). -/
def pyInt (ds : List Char) : Except Unit Nat :=
  if ds ≠ [] ∧ ds.all isPyDigit = true then .ok (pyDigitsToNat ds) else .error ()

/-- Python `str.strip()` restricted to ASCII whitespace. -/
def pyStrip (s : List Char) : List Char :=
  ((s.dropWhile isWs).reverse.dropWhile isWs).reverse

/-- Lowercased character list of a string, Python `s.lower()`. -/
def lowerStr (s : String) : List Char :=
  s.data.map Char.toLower

/-! ## Response parsing (`_parse_detected_step`, `_parse_step_progress`,
`_parse_completion_evidence`, lines 914-978, and the match flag of
line 439).

Each `...Body` function is the body of the Python `try:` block, with the
genuinely fallible operation (`int()`) surfaced in `Except`; the public
function wraps it with the `except` handler that degrades to `None`. -/

/-- Attempt to match `Detected Step:\s*(\d+)` at the current position
(case-insensitive); returns the digit group.  As the alternatives after
`\s*` begin with a non-whitespace character, greedy `\s*` plus
backtracking is equivalent to skipping the maximal whitespace run. -/
def dsAttempt (s : List Char) : Option (List Char) :=
  if startsWithCI "detected step:".data s then
    let ds := ((s.drop "detected step:".length).dropWhile isWs).takeWhile isPyDigit
    if ds.isEmpty then none else some ds
  else none

/-- Body of `_parse_detected_step`: find the digit group and convert with
`int`, returning the zero-based index `n - 1`. -/
def parseDetectedStepBody (analysis : String) : Except Unit (Option Int) :=
  match reSearch dsAttempt analysis.data with
  | some ds =>
    match pyInt ds with
    | .ok n => .ok (some ((n : Int) - 1))
    | .error e => .error e
  | none => .ok none

/-- `_parse_detected_step` (lines 914-935): the body under the
`except`-to-`None` handler. -/
def parse_detected_step (analysis : String) : Option Int :=
  match parseDetectedStepBody analysis with
  | .ok v => v
  | .error _ => none

/-- The four phase words of the `Step Progress` alternation, in the order
the regex tries them. -/
def progressWords : List (List Char) :=
  ["just-started".data, "in-progress".data, "nearing-completion".data, "completed".data]

/-- Attempt to match
`Step Progress:\s*(just-started|in-progress|nearing-completion|completed)`
at the current position; group lowercased equals the canonical word. -/
def spAttempt (s : List Char) : Option (List Char) :=
  if startsWithCI "step progress:".data s then
    let rest := (s.drop "step progress:".length).dropWhile isWs
    progressWords.findSome? (fun w => if startsWithCI w rest then some w else none)
  else none

/-- Body of `_parse_step_progress`: nothing in it can raise. -/
def parseStepProgressBody (analysis : String) : Except Unit (Option String) :=
  .ok ((reSearch spAttempt analysis.data).map (fun w => String.mk w))

/-- `_parse_step_progress` (lines 937-955). -/
def parse_step_progress (analysis : String) : Option String :=
  match parseStepProgressBody analysis with
  | .ok v => v
  | .error _ => none

/-- Engine semantics of `\s*(.+?)(?:\n|$)` after the label: `\s*` is
tried greedily (`k` whitespace characters, backtracking downwards), the
lazy group then takes the run up to the first newline or the end, which
must be nonempty and start with a non-newline character. -/
def ceTry (rest : List Char) : Nat → Option (List Char)
  | 0 =>
    match rest with
    | [] => none
    | c :: cs => if c ≠ '\n' then some ((c :: cs).takeWhile (fun d => d ≠ '\n')) else none
  | k + 1 =>
    match rest.drop (k + 1) with
    | [] => ceTry rest k
    | c :: cs =>
      if c ≠ '\n' then some ((c :: cs).takeWhile (fun d => d ≠ '\n')) else ceTry rest k

/-- Attempt to match `Completion Evidence:\s*(.+?)(?:\n|$)` at the
current position; returns the group. -/
def ceAttempt (s : List Char) : Option (List Char) :=
  if startsWithCI "completion evidence:".data s then
    let rest := s.drop "completion evidence:".length
    ceTry rest (rest.takeWhile isWs).length
  else none

/-- The placeholder tokens rejected by `_parse_completion_evidence`. -/
def placeholderTokens : List (List Char) :=
  ["none".data, "n/a".data, "-".data, "null".data]

/-- Body of `_parse_completion_evidence`: nothing in it can raise. -/
def parseCompletionEvidenceBody (analysis : String) : Except Unit (Option String) :=
  .ok (match reSearch ceAttempt analysis.data with
    | some g =>
      let evidence := pyStrip g
      if evidence ≠ [] ∧ placeholderTokens.contains (evidence.map Char.toLower) = false then
        some (String.mk evidence)
      else none
    | none => none)

/-- `_parse_completion_evidence` (lines 957-978). -/
def parse_completion_evidence (analysis : String) : Option String :=
  match parseCompletionEvidenceBody analysis with
  | .ok v => v
  | .error _ => none

/-- The match flag of line 439:
`"yes" in analysis.lower() and "matches expected: yes" in analysis.lower()`. -/
def matchesExpectedFlag (analysis : String) : Bool :=
  hasSub "yes".data (lowerStr analysis) &&
    hasSub "matches expected: yes".data (lowerStr analysis)

/-! ## Data model -/

/-- The per-index status values written by the cumulative tracker
(`step_status` dict): every index starts `pending`; the cumulative path
only ever writes `detected` and `missed`. -/
inductive StepStatus
  | pending
  | detected
  | missed
deriving DecidableEq, Repr

/-- One reference step of the master procedure (the fields the modelled
code paths read; the remaining fields of the record are only spliced
into prompt text). -/
structure ProcStep where
  step_number : Int
  step_name : String
  description : String
  is_critical : Bool
deriving DecidableEq, Repr

/-- An alert as assembled by `_check_compliance` or
`_generate_missed_step_alert` before persistence. -/
structure Alert where
  alert_type : String
  severity : String
  message : String
deriving DecidableEq, Repr

/-- Pointwise update of a map, Python `d[k] = v`. -/
def updMap (f : Int → α) (k : Int) (v : α) : Int → α :=
  fun i => if i = k then v else f i

/-- Python `l[-n:]` (`n > 0`): the last `n` elements, or all of them when
the list is shorter. -/
def lastN (n : Nat) (l : List α) : List α :=
  l.drop (l.length - n)

/-- Python list indexing `l[i]`: negative indices count from the end,
anything out of range raises `IndexError`. -/
def pyGet (l : List α) (i : Int) : Except Unit α :=
  if 0 ≤ i then
    if h : i.toNat < l.length then .ok (l.get ⟨i.toNat, h⟩) else .error ()
  else
    let j : Int := (l.length : Int) + i
    if 0 ≤ j then
      if h : j.toNat < l.length then .ok (l.get ⟨j.toNat, h⟩) else .error ()
    else .error ()

/-- The cumulative tracking state of a session: the cumulative detected
set, the status dict (absent keys modelled by `none`; keys `0..len-1`
are initialised `pending` by `start_session`) and the bounded per-step
detection history. -/
structure TrackerState where
  detected_steps_cumulative : List Int
  step_status : Int → Option StepStatus
  step_detection_history : Int → List String

/-- Tracker state right after `start_session` for a given step list:
statuses `pending` on `0..len-1`, empty set and history. -/
def trackerInit (steps : List ProcStep) : TrackerState where
  detected_steps_cumulative := []
  step_status := fun i => if 0 ≤ i ∧ i < (steps.length : Int) then some .pending else none
  step_detection_history := fun _ => []

/-! ## Compliance keyword scan (`_check_compliance`, lines 857-911) -/

/-- The zero to three alerts `_check_compliance` derives from one
analysis text by case-insensitive substring checks. -/
def checkCompliance (analysis : String) (expected_step : ProcStep) : List Alert :=
  let al := lowerStr analysis
  (if hasSub "no".data al && hasSub "expected step".data al then
    [{ alert_type := "step_deviation", severity := "warning",
       message := "Possible deviation from expected step: " ++ expected_step.step_name }]
   else []) ++
  (if ["concern", "risk", "danger", "warning"].any (fun k => hasSub k.data al) then
    [{ alert_type := "safety_concern",
       severity := if expected_step.is_critical then "high" else "medium",
       message := "Safety concern detected during procedure" }]
   else []) ++
  (if hasSub "missing".data al || hasSub "not visible".data al then
    [{ alert_type := "instrument_check", severity := "medium",
       message := "Expected instruments may not be visible" }]
   else [])

/-! ## Cumulative processing (`_process_analysis_response`, lines 429-572)

The skipped-step loop of lines 493-503 marks a step `missed` and then
executes `await self._create_missed_step_alert(i)`.  No method of that
name exists on the class (the implemented helper is
`_generate_missed_step_alert`, reachable only from the legacy per-frame
path), so the attribute lookup raises `AttributeError` right after the
first marking; the `except` at line 567 catches it, so the state
mutations made so far survive, the rest of the loop, the analysis
callback and the compliance check are skipped, and no alert is created. -/

/-- Python set `add`: sets hold no duplicates, so adding a present
element is the identity (the cumulative set is only ever read through
membership and through `sorted(...)`, so the list order is immaterial). -/
def setAdd (l : List Int) (x : Int) : List Int :=
  if x ∈ l then l else l ++ [x]

/-- Python `[i for i in range(d) if i not in det]` over `Int`
(`range(d)` is empty for `d <= 0`). -/
def undetectedBefore (d : Int) (det : List Int) : List Int :=
  ((List.range d.toNat).map (fun n => (n : Int))).filter (fun i => decide (i ∉ det))

/-- The loop of lines 493-503.  Returns the updated status map and
whether the `AttributeError` was raised (always right after the first
marking, aborting the loop). -/
def markMissed (d : Int) (status : Int → Option StepStatus) :
    List Int → ((Int → Option StepStatus) × Bool)
  | [] => (status, false)
  | i :: rest =>
    if d - i > 2 ∧ status i = some StepStatus.pending then
      (updMap status i (some StepStatus.missed), true)
    else markMissed d status rest

/-- The index the loop marks, when there is one: the first undetected
index before `d` that has gap `> 2` and status `pending`. -/
def firstQualifying (d : Int) (det : List Int) (status : Int → Option StepStatus) :
    Option Int :=
  (undetectedBefore d det).find?
    (fun i => decide (d - i > 2) && (status i == some StepStatus.pending))

/-- Lines 454-565 applied to already-parsed signals: the cumulative
update for a result with detected index `detIdx` and match flag
`matches`, returning the new tracker state and the alerts generated
for this chunk.  The log call of lines 473-487 indexes
`procedure_steps[detected_step_index]`, so an out-of-range detected
index raises there (after the set, history and status writes) and is
caught at line 567. -/
def processParsed (steps : List ProcStep) (expected_step : ProcStep) (st : TrackerState)
    (detIdx : Option Int) (matched : Bool) (analysis : String) :
    TrackerState × List Alert :=
  match detIdx, matched with
  | some d, true =>
    let det' := setAdd st.detected_steps_cumulative d
    let hist' := updMap st.step_detection_history d
      (lastN 3 (st.step_detection_history d ++ [analysis]))
    let status1 := updMap st.step_status d (some StepStatus.detected)
    match pyGet steps d with
    | .error _ =>
      ({ detected_steps_cumulative := det', step_status := status1,
         step_detection_history := hist' }, [])
    | .ok _ =>
      let r := markMissed d status1 (undetectedBefore d det')
      ({ detected_steps_cumulative := det', step_status := r.1,
         step_detection_history := hist' },
       if r.2 then [] else checkCompliance analysis expected_step)
  | _, _ => (st, checkCompliance analysis expected_step)

/-- `_process_analysis_response` itself: parse the response text
(lines 437-441; the progress and evidence fields are parsed but do not
feed the cumulative update) and process the parsed signals. -/
def processAnalysisResponse (steps : List ProcStep) (expected_step : ProcStep)
    (st : TrackerState) (analysis : String) : TrackerState × List Alert :=
  processParsed steps expected_step st
    (parse_detected_step analysis) (matchesExpectedFlag analysis) analysis

/-- Processing a whole sequence of parsed analysis results in arrival
order, the discipline the single worker guarantees. -/
def processSeq (steps : List ProcStep) (expected_step : ProcStep) (st : TrackerState) :
    List (Option Int × Bool × String) → TrackerState
  | [] => st
  | r :: rs =>
    processSeq steps expected_step
      (processParsed steps expected_step st r.1 r.2.1 r.2.2).1 rs

/-! ## Prompt construction over the cumulative set
(`_analyze_video_chunk`, lines 294-304) -/

/-- One line of the detected-steps context: indexes
`procedure_steps[i]` for a member `i` of the cumulative set. -/
def detectedLine (steps : List ProcStep) (hist : Int → List String) (i : Int) :
    Except Unit String := do
  let s ← pyGet steps i
  let base := "✓ Step " ++ toString s.step_number ++ ": " ++ s.step_name
  match (hist i).getLast? with
  | some last => pure (base ++ " (Last seen: " ++ String.mk (last.data.take 100) ++ "...)")
  | none => pure base

/-- The loop of lines 296-303 over the sorted cumulative set. -/
def buildDetectedList (steps : List ProcStep) (hist : Int → List String) :
    List Int → Except Unit (List String)
  | [] => .ok []
  | i :: rest => do
    let line ← detectedLine steps hist i
    let others ← buildDetectedList steps hist rest
    pure (line :: others)

/-- The `detected_context` block of the prompt: every member of the
cumulative set indexes the step list (lines 295-304).  Raising here
aborts the whole chunk analysis (caught at line 422). -/
def buildDetectedStepsContext (steps : List ProcStep) (tr : TrackerState) :
    Except Unit String := do
  let ls ← buildDetectedList steps tr.step_detection_history
    (List.insertionSort (· ≤ ·) tr.detected_steps_cumulative)
  pure (if ls.isEmpty then "None yet" else String.intercalate "\n" ls)

/-- Did the computation raise? -/
def exceptErrored : Except Unit α → Bool
  | .error _ => true
  | .ok _ => false

/-! ## Chunker, queue and session lifecycle -/

/-- `chunk_size = 7` frames per analysis window (7 s at 1 FPS). -/
def chunk_size : Nat := 7

/-- `chunk_overlap = 2` frames shared by consecutive windows. -/
def chunk_overlap : Nat := 2

/-- A queued video chunk: its frames and its frame-index range. -/
structure Chunk where
  frames : List Nat
  start_frame : Int
  end_frame : Int
deriving DecidableEq, Repr

/-- The mutable session state of `LiveSurgeryService` (frames are opaque
`Nat` identifiers; database handles, callbacks and the asyncio task
object are external effects not represented in the state). -/
structure ServiceState where
  procedure_steps : List ProcStep
  current_step_index : Int
  tracker : TrackerState
  frame_buffer : List Nat
  frame_count : Int
  chunk_queue : List Chunk
  is_processing_chunks : Bool
  chunk_history : List String

/-- Session state right after `start_session` succeeded for `steps`. -/
def startState (steps : List ProcStep) : ServiceState where
  procedure_steps := steps
  current_step_index := 0
  tracker := trackerInit steps
  frame_buffer := []
  frame_count := 0
  chunk_queue := []
  is_processing_chunks := true
  chunk_history := []

/-- `process_frame` (lines 150-189): append the frame; once the buffer
holds `chunk_size` frames, enqueue a chunk of the oldest `chunk_size`
frames with its frame-index range and retract the buffer to the last
`chunk_overlap` frames.  The running flag is never consulted. -/
def process_frame (st : ServiceState) (frame : Nat) : ServiceState :=
  let fc := st.frame_count + 1
  let buf := st.frame_buffer ++ [frame]
  if chunk_size ≤ buf.length then
    let chunk_frames := buf.take chunk_size
    { st with
      frame_count := fc
      chunk_queue := st.chunk_queue ++
        [{ frames := chunk_frames,
           start_frame := fc - (chunk_frames.length : Int) + 1,
           end_frame := fc }]
      frame_buffer := buf.drop (chunk_size - chunk_overlap) }
  else
    { st with frame_count := fc, frame_buffer := buf }

/-- Ingesting a list of frames in order. -/
def ingestList (st : ServiceState) (frames : List Nat) : ServiceState :=
  frames.foldl process_frame st

/-- `stop_session` (lines 1073-1127): clear the running flag, drain the
queue, clear the frame buffer (task cancellation and the database update
are external effects). -/
def stop_session (st : ServiceState) : ServiceState :=
  { st with is_processing_chunks := false, chunk_queue := [], frame_buffer := [] }

/-- `_analyze_video_chunk` (lines 273-427) with the oracle reply
supplied as `response`: discard the chunk if the session has stopped,
guard on the step list, build the prompt context over the cumulative set
(raising there aborts the chunk, caught at line 422), record the reply
in the bounded chunk history and process it. -/
def analyzeVideoChunk (st : ServiceState) (_chunk : Chunk) (response : String) :
    ServiceState × List Alert :=
  if st.is_processing_chunks = false then (st, [])
  else if st.procedure_steps.isEmpty || (st.procedure_steps.length : Int) ≤ st.current_step_index then
    (st, [])
  else
    match pyGet st.procedure_steps st.current_step_index with
    | .error _ => (st, [])
    | .ok current_step =>
      match buildDetectedStepsContext st.procedure_steps st.tracker with
      | .error _ => (st, [])
      | .ok _ =>
        let hist := lastN 10 (st.chunk_history ++ [response])
        let r := processAnalysisResponse st.procedure_steps current_step st.tracker response
        ({ st with chunk_history := hist, tracker := r.1 }, r.2)

/-! ## Concrete fixtures used by the claim instances -/

/-- A reference step with the given ordinal. -/
def mkStep (n : Int) (name : String) : ProcStep where
  step_number := n
  step_name := name
  description := ""
  is_critical := false

/-- A five-step reference procedure, indices `0..4`. -/
def steps5 : List ProcStep :=
  [mkStep 1 "s1", mkStep 2 "s2", mkStep 3 "s3", mkStep 4 "s4", mkStep 5 "s5"]

/-- The expected step handed to the compliance check in the instances. -/
def stepA : ProcStep := mkStep 1 "s1"

/-! ## Helper lemmas -/

theorem setAdd_subset (l : List Int) (x : Int) : l ⊆ setAdd l x := by
  unfold setAdd
  split
  · exact fun _ h => h
  · exact List.subset_append_left _ _

theorem setAdd_of_mem {l : List Int} {x : Int} (h : x ∈ l) : setAdd l x = l := by
  unfold setAdd
  exact if_pos h

theorem mem_setAdd_self (l : List Int) (x : Int) : x ∈ setAdd l x := by
  unfold setAdd
  split
  · assumption
  · exact List.mem_append_right _ (List.mem_singleton.mpr rfl)

theorem checkCompliance_alert_types (analysis : String) (e : ProcStep) :
    ∀ a ∈ checkCompliance analysis e,
      a.alert_type = "step_deviation" ∨ a.alert_type = "safety_concern" ∨
        a.alert_type = "instrument_check" := by
  intro a ha
  unfold checkCompliance at ha
  rcases List.mem_append.mp ha with h | h
  · rcases List.mem_append.mp h with h1 | h1
    · split at h1
      · rw [List.mem_singleton.mp h1]
        exact Or.inl rfl
      · cases h1
    · split at h1
      · rw [List.mem_singleton.mp h1]
        exact Or.inr (Or.inl rfl)
      · cases h1
  · split at h
    · rw [List.mem_singleton.mp h]
      exact Or.inr (Or.inr rfl)
    · cases h

theorem markMissed_eq_find (d : Int) (status : Int → Option StepStatus) (l : List Int) :
    markMissed d status l =
      match l.find? (fun i => decide (d - i > 2) && (status i == some StepStatus.pending)) with
      | some i => (updMap status i (some StepStatus.missed), true)
      | none => (status, false) := by
  induction l with
  | nil => rfl
  | cons i rest ih =>
    by_cases h : d - i > 2 ∧ status i = some StepStatus.pending
    · have hb : (decide (d - i > 2) && (status i == some StepStatus.pending)) = true := by
        simp [h.1, h.2]
      rw [markMissed, if_pos h, List.find?_cons, hb]
    · have hb : (decide (d - i > 2) && (status i == some StepStatus.pending)) = false := by
        rcases not_and_or.mp h with h1 | h1 <;> simp [h1]
      rw [markMissed, if_neg h, List.find?_cons, hb, ih]

/-- Full characterisation of the detection branch of
`_process_analysis_response`. -/
theorem processParsed_some_true (steps : List ProcStep) (e : ProcStep) (st : TrackerState)
    (d : Int) (analysis : String) :
    processParsed steps e st (some d) true analysis =
      let det' := setAdd st.detected_steps_cumulative d
      let hist' := updMap st.step_detection_history d
        (lastN 3 (st.step_detection_history d ++ [analysis]))
      let status1 := updMap st.step_status d (some StepStatus.detected)
      match pyGet steps d with
      | .error _ =>
        ({ detected_steps_cumulative := det', step_status := status1,
           step_detection_history := hist' }, [])
      | .ok _ =>
        match firstQualifying d det' status1 with
        | some i =>
          ({ detected_steps_cumulative := det',
             step_status := updMap status1 i (some StepStatus.missed),
             step_detection_history := hist' }, [])
        | none =>
          ({ detected_steps_cumulative := det', step_status := status1,
             step_detection_history := hist' }, checkCompliance analysis e) := by
  cases hg : pyGet steps d with
  | error u => simp only [processParsed, hg]
  | ok s0 =>
    simp only [processParsed, hg, markMissed_eq_find, firstQualifying]
    cases hf : (undetectedBefore d (setAdd st.detected_steps_cumulative d)).find?
        (fun i => decide (d - i > 2) &&
          (updMap st.step_status d (some StepStatus.detected) i == some StepStatus.pending)) with
    | some i => simp [hf]
    | none => simp [hf]

theorem processParsed_detected_subset (steps : List ProcStep) (e : ProcStep)
    (st : TrackerState) (detIdx : Option Int) (matched : Bool) (analysis : String) :
    st.detected_steps_cumulative ⊆
      (processParsed steps e st detIdx matched analysis).1.detected_steps_cumulative := by
  cases detIdx with
  | none => exact fun _ h => h
  | some d =>
    cases matched with
    | false => exact fun _ h => h
    | true =>
      cases hg : pyGet steps d with
      | error u =>
        simp only [processParsed, hg]
        exact setAdd_subset _ _
      | ok s0 =>
        simp only [processParsed, hg]
        exact setAdd_subset _ _

theorem processSeq_subset (steps : List ProcStep) (e : ProcStep) :
    ∀ (rs : List (Option Int × Bool × String)) (st : TrackerState),
      st.detected_steps_cumulative ⊆ (processSeq steps e st rs).detected_steps_cumulative := by
  intro rs
  induction rs with
  | nil => exact fun st _ h => h
  | cons r rest ih =>
    intro st
    exact fun a ha =>
      ih (processParsed steps e st r.1 r.2.1 r.2.2).1
        (processParsed_detected_subset steps e st r.1 r.2.1 r.2.2 ha)

theorem processSeq_append (steps : List ProcStep) (e : ProcStep)
    (l1 l2 : List (Option Int × Bool × String)) :
    ∀ st, processSeq steps e st (l1 ++ l2) = processSeq steps e (processSeq steps e st l1) l2 := by
  induction l1 with
  | nil => intro st; rfl
  | cons r rest ih => intro st; exact ih _

/-! ## C2: monotonic detection -/

/-- C2: for every sequence of parsed analysis results processed in
order, the cumulative detected-index set after `k+1` results contains
the set after `k` results, and processing any further results never
removes an index that is already present: the set only ever grows. -/
theorem c2_monotonic_detection (steps : List ProcStep) (e : ProcStep) (st : TrackerState)
    (rs : List (Option Int × Bool × String)) (k : Nat)
    (pre suf : List (Option Int × Bool × String)) :
    (processSeq steps e st (rs.take k)).detected_steps_cumulative ⊆
      (processSeq steps e st (rs.take (k + 1))).detected_steps_cumulative ∧
    (processSeq steps e st pre).detected_steps_cumulative ⊆
      (processSeq steps e st (pre ++ suf)).detected_steps_cumulative := by
  constructor
  · rw [List.take_succ, processSeq_append]
    exact processSeq_subset steps e _ _
  · rw [processSeq_append]
    exact processSeq_subset steps e _ _

/-! ## C3: chunk windowing -/

/-- C3: with `chunk_size = 7` and `chunk_overlap = 2`, ingesting frames
`1..14` emits exactly the two chunks `[1,7]` and `[6,12]`, and right
after each emission the buffer holds exactly the last two frames. -/
theorem c3_chunk_windowing :
    (ingestList (startState steps5) [1, 2, 3, 4, 5, 6, 7, 8, 9, 10, 11, 12, 13, 14]).chunk_queue =
      [{ frames := [1, 2, 3, 4, 5, 6, 7], start_frame := 1, end_frame := 7 },
       { frames := [6, 7, 8, 9, 10, 11, 12], start_frame := 6, end_frame := 12 }] ∧
    (ingestList (startState steps5) [1, 2, 3, 4, 5, 6, 7, 8, 9, 10, 11, 12, 13, 14]).chunk_queue.length = 2 ∧
    (ingestList (startState steps5) [1, 2, 3, 4, 5, 6, 7]).frame_buffer = [6, 7] ∧
    (ingestList (startState steps5) [1, 2, 3, 4, 5, 6, 7, 8, 9, 10, 11, 12]).frame_buffer = [11, 12] := by
  decide

/-! ## C4: stop drains cleanly -/

/-- C4: right after `stop_session` the queue is empty, the frame buffer
is empty and the running flag is false; and a chunk handed to
`_analyze_video_chunk` in any state whose running flag is false is
discarded unchanged, with no alert generated. -/
theorem c4_stop_drains_cleanly (st : ServiceState) :
    (stop_session st).chunk_queue = [] ∧
    (stop_session st).frame_buffer = [] ∧
    (stop_session st).is_processing_chunks = false ∧
    (∀ (c : Chunk) (response : String),
      analyzeVideoChunk (stop_session st) c response = (stop_session st, [])) ∧
    (∀ (st2 : ServiceState) (c : Chunk) (response : String),
      analyzeVideoChunk { st2 with is_processing_chunks := false } c response =
        ({ st2 with is_processing_chunks := false }, [])) :=
  ⟨rfl, rfl, rfl, fun _ _ => rfl, fun _ _ _ => rfl⟩

/-! ## C10: post-stop ingestion still enqueues -/

/-- C10: `process_frame` never reads the running flag: its effect on the
buffer, the frame counter and the queue is the same whatever the flag
is, and it never removes queued chunks; hence after `stop_session`
ingesting `chunk_size` frames leaves the queue non-empty again, and a
dequeued chunk is dropped (without analysis or alerts) only by the
worker observing the cleared flag. -/
theorem c10_post_stop_ingestion_enqueues :
    (∀ (st : ServiceState) (f : Nat) (b : Bool),
      (process_frame { st with is_processing_chunks := b } f).frame_buffer =
        (process_frame st f).frame_buffer ∧
      (process_frame { st with is_processing_chunks := b } f).frame_count =
        (process_frame st f).frame_count ∧
      (process_frame { st with is_processing_chunks := b } f).chunk_queue =
        (process_frame st f).chunk_queue ∧
      (process_frame { st with is_processing_chunks := b } f).is_processing_chunks = b) ∧
    (∀ (st : ServiceState) (f : Nat),
      ∃ tail, (process_frame st f).chunk_queue = st.chunk_queue ++ tail) ∧
    (∀ (st : ServiceState) (f1 f2 f3 f4 f5 f6 f7 : Nat),
      (ingestList (stop_session st) [f1, f2, f3, f4, f5, f6, f7]).chunk_queue ≠ []) ∧
    (∀ (st : ServiceState) (c : Chunk) (response : String),
      analyzeVideoChunk { st with is_processing_chunks := false } c response =
        ({ st with is_processing_chunks := false }, [])) := by
  refine ⟨?_, ?_, ?_, fun _ _ _ => rfl⟩
  · intro st f b
    dsimp only [process_frame]
    split <;> exact ⟨rfl, rfl, rfl, rfl⟩
  · intro st f
    dsimp only [process_frame]
    split
    · exact ⟨_, rfl⟩
    · exact ⟨[], (List.append_nil _).symm⟩
  · intro st f1 f2 f3 f4 f5 f6 f7
    simp [ingestList, stop_session, process_frame, chunk_size, chunk_overlap]

/-! ## Parser lemmas -/

theorem all_takeWhile (p : α → Bool) (l : List α) : (l.takeWhile p).all p = true := by
  induction l with
  | nil => rfl
  | cons a t ih =>
    by_cases h : p a = true
    · simp [List.takeWhile_cons, h, ih]
    · simp [List.takeWhile_cons, h]

theorem dsAttempt_some {s ds : List Char} (h : dsAttempt s = some ds) :
    ds ≠ [] ∧ ds.all isPyDigit = true := by
  unfold dsAttempt at h
  split at h
  · dsimp only at h
    split at h
    case isTrue he => cases h
    case isFalse he =>
      cases h
      refine ⟨?_, all_takeWhile _ _⟩
      intro hnil
      exact he (by simp [hnil])
  · cases h

theorem reSearch_ds_good :
    ∀ {s ds : List Char}, reSearch dsAttempt s = some ds →
      ds ≠ [] ∧ ds.all isPyDigit = true := by
  intro s
  induction s with
  | nil => intro ds h; cases h
  | cons c rest ih =>
    intro ds h
    rw [reSearch] at h
    cases hf : dsAttempt (c :: rest) with
    | some a =>
      rw [hf] at h
      cases h
      exact dsAttempt_some hf
    | none =>
      rw [hf] at h
      exact ih h

theorem reSearch_none_of_no_label {α : Type} {f : List Char → Option α} {lbl : List Char}
    (hf : ∀ t, startsWithCI lbl t = false → f t = none) :
    ∀ s, labelOccurs lbl s = false → reSearch f s = none := by
  intro s
  induction s with
  | nil => intro _; rfl
  | cons c rest ih =>
    intro h
    rw [labelOccurs] at h
    have h2 := Bool.or_eq_false_iff.mp h
    rw [reSearch, hf _ h2.1]
    exact ih h2.2

theorem dsAttempt_none_of_no_label (t : List Char)
    (h : startsWithCI "detected step:".data t = false) : dsAttempt t = none := by
  unfold dsAttempt
  rw [h]
  simp

/-! ## C6: parsing totality -/

/-- C6: on every input string each field parser computes a value: the
`try`-block bodies never reach an exceptional state (in particular the
`int()` conversion always receives a nonempty digit run), so each public
parser returns the body value and malformed fields merely come out as
`none`. -/
theorem c6_parsing_totality (s : String) :
    parseDetectedStepBody s = Except.ok (parse_detected_step s) ∧
    parseStepProgressBody s = Except.ok (parse_step_progress s) ∧
    parseCompletionEvidenceBody s = Except.ok (parse_completion_evidence s) := by
  refine ⟨?_, rfl, rfl⟩
  cases hr : reSearch dsAttempt s.data with
  | none => simp [parseDetectedStepBody, parse_detected_step, hr]
  | some ds =>
    have hg := reSearch_ds_good hr
    have hok : pyInt ds = .ok (pyDigitsToNat ds) := by
      rw [pyInt, if_pos hg]
    simp [parseDetectedStepBody, parse_detected_step, hr, hok]

/-! ## C5: parser round trip -/

/-- The round-trip response text of the spec instance. -/
def roundTripText : String :=
  "Detected Step: 4\nStep Progress: completed\nCompletion Evidence: suture tied\nMatches Expected: yes"

/-- C5: the constructed response parses to detected index 3 (`n - 1`),
progress `completed`, evidence `suture tied` and a true match flag; and
whenever the `Detected Step:` label does not occur in the text, the
detected index parses to `none`. -/
theorem c5_parser_round_trip :
    (parse_detected_step roundTripText = some 3 ∧
     parse_step_progress roundTripText = some "completed" ∧
     parse_completion_evidence roundTripText = some "suture tied" ∧
     matchesExpectedFlag roundTripText = true) ∧
    (∀ s : String, labelOccurs "detected step:".data s.data = false →
      parse_detected_step s = none) := by
  refine ⟨by decide, ?_⟩
  intro s h
  have hnone := reSearch_none_of_no_label
    (f := dsAttempt) (fun t ht => dsAttempt_none_of_no_label t ht) s.data h
  simp [parse_detected_step, parseDetectedStepBody, hnone]

/-- Witness for C5 at a concrete label-free input. -/
theorem c5_witness :
    labelOccurs "detected step:".data "Action Being Performed: dissection".data = false ∧
    parse_detected_step "Action Being Performed: dissection" = none :=
  ⟨by decide, c5_parser_round_trip.2 "Action Being Performed: dissection" (by decide)⟩

/-! ## C8: placeholder evidence rejection -/

/-- C8: evidence values `N/A` and `none` (and whitespace-only text)
parse to absent evidence, and every successfully parsed evidence value
is the stripped regex group, is nonempty, and is none of the placeholder
tokens `none`, `n/a`, `-`, `null` (lowercased comparison). -/
theorem c8_placeholder_evidence_rejection :
    parse_completion_evidence "Completion Evidence: N/A" = none ∧
    parse_completion_evidence "Completion Evidence: none" = none ∧
    parse_completion_evidence "Completion Evidence:   " = none ∧
    (∀ (s : String) (e : String), parse_completion_evidence s = some e →
      ∃ g, reSearch ceAttempt s.data = some g ∧
        e = String.mk (pyStrip g) ∧ e.data ≠ [] ∧
        placeholderTokens.contains (e.data.map Char.toLower) = false) := by
  refine ⟨by decide, by decide, by decide, ?_⟩
  intro s e h
  unfold parse_completion_evidence parseCompletionEvidenceBody at h
  cases hr : reSearch ceAttempt s.data with
  | none => rw [hr] at h; cases h
  | some g =>
    rw [hr] at h
    dsimp only at h
    split at h
    case isTrue hc =>
      cases h
      exact ⟨g, rfl, rfl, hc.1, hc.2⟩
    case isFalse hc => cases h

/-- Witness for C8 at a concrete accepted evidence value. -/
theorem c8_witness :
    parse_completion_evidence "Completion Evidence: cystic duct clipped" =
      some "cystic duct clipped" ∧
    ∃ g, reSearch ceAttempt "Completion Evidence: cystic duct clipped".data = some g ∧
      "cystic duct clipped" = String.mk (pyStrip g) ∧
      "cystic duct clipped".data ≠ [] ∧
      placeholderTokens.contains ("cystic duct clipped".data.map Char.toLower) = false :=
  ⟨by decide,
    c8_placeholder_evidence_rejection.2.2.2 "Completion Evidence: cystic duct clipped"
      "cystic duct clipped" (by decide)⟩

/-! ## C1: skip detection -/

/-- C1 counterexample: from the all-pending five-step state, processing
detected index 3 with match flag true leaves step 1 `pending` and
produces no alert at all, while the claim expects steps 0 and 1 `missed`
and two `step_skipped` alerts; and processing detected index 4 leaves
the qualifying step 1 `pending` (only step 0 is marked), refuting the
claim's general rule that every pending earlier index with gap greater
than 2 is marked. -/
theorem c1_counterexample :
    ((processParsed steps5 stepA (trackerInit steps5) (some 3) true "ok").1.step_status 1 =
        some StepStatus.pending ∧
      (processParsed steps5 stepA (trackerInit steps5) (some 3) true "ok").2 = []) ∧
    ((processParsed steps5 stepA (trackerInit steps5) (some 4) true "ok").1.step_status 0 =
        some StepStatus.missed ∧
      (processParsed steps5 stepA (trackerInit steps5) (some 4) true "ok").1.step_status 1 =
        some StepStatus.pending ∧
      (processParsed steps5 stepA (trackerInit steps5) (some 4) true "ok").2 = []) := by
  decide

/-- C1 (amended): processing a detected in-range index `d` with match
flag true never raises a `step_skipped` alert (the alert call names the
undefined method `_create_missed_step_alert`, so it raises and is caught
at line 567), and at most the first earlier still-pending undetected
index with gap greater than 2 is marked `missed` — the loop aborts right
after it; concretely, from the all-pending five-step state, detected
index 3 marks only step 0 `missed` with no alert, and detected index 2
marks nothing. -/
theorem c1_amended_skip_detection (steps : List ProcStep) (e : ProcStep) (st : TrackerState)
    (d : Int) (analysis : String) (s0 : ProcStep) (hd : pyGet steps d = Except.ok s0) :
    (∀ a ∈ (processParsed steps e st (some d) true analysis).2, a.alert_type ≠ "step_skipped") ∧
    ((processParsed steps e st (some d) true analysis).1.step_status =
      match firstQualifying d (setAdd st.detected_steps_cumulative d)
          (updMap st.step_status d (some StepStatus.detected)) with
      | some i =>
        updMap (updMap st.step_status d (some StepStatus.detected)) i (some StepStatus.missed)
      | none => updMap st.step_status d (some StepStatus.detected)) ∧
    (∀ i, firstQualifying d (setAdd st.detected_steps_cumulative d)
        (updMap st.step_status d (some StepStatus.detected)) = some i →
      (processParsed steps e st (some d) true analysis).2 = []) ∧
    ((processParsed steps5 stepA (trackerInit steps5) (some 3) true "ok").1.step_status 0 =
        some StepStatus.missed ∧
      (processParsed steps5 stepA (trackerInit steps5) (some 3) true "ok").1.step_status 2 =
        some StepStatus.pending ∧
      (processParsed steps5 stepA (trackerInit steps5) (some 3) true "ok").2 = [] ∧
      (processParsed steps5 stepA (trackerInit steps5) (some 2) true "ok").1.step_status 0 =
        some StepStatus.pending ∧
      (processParsed steps5 stepA (trackerInit steps5) (some 2) true "ok").1.step_status 1 =
        some StepStatus.pending ∧
      (processParsed steps5 stepA (trackerInit steps5) (some 2) true "ok").2 = []) := by
  rw [processParsed_some_true, hd]
  dsimp only
  cases hq : firstQualifying d (setAdd st.detected_steps_cumulative d)
      (updMap st.step_status d (some StepStatus.detected)) with
  | some i0 =>
    dsimp only
    refine ⟨?_, rfl, fun _ _ => rfl, by decide⟩
    intro a ha
    cases ha
  | none =>
    dsimp only
    refine ⟨?_, rfl, ?_, by decide⟩
    · intro a ha
      rcases checkCompliance_alert_types analysis e a ha with h | h | h <;>
        · rw [h]; decide
    · intro i hi
      cases hi

/-- Witness for C1 (amended) at detected index 3 over the five-step
fixture. -/
theorem c1_witness :
    pyGet steps5 3 = Except.ok (mkStep 4 "s4") ∧
    (∀ a ∈ (processParsed steps5 stepA (trackerInit steps5) (some 3) true "ok").2,
      a.alert_type ≠ "step_skipped") :=
  ⟨rfl,
    (c1_amended_skip_detection steps5 stepA (trackerInit steps5) 3 "ok" (mkStep 4 "s4") rfl).1⟩

/-! ## C7: idempotent re-detection -/

/-- The tracker state after a first detection of index 4 from the
all-pending five-step state: only step 0 got marked `missed` before the
loop aborted on the undefined alert method. -/
def afterFirstDetect4 : TrackerState :=
  (processParsed steps5 stepA (trackerInit steps5) (some 4) true "a").1

/-- C7 counterexample: re-processing detected index 4, which is already
in the cumulative set, newly marks step 1 `missed` — step 1 was still
`pending` after the first detection because the aborted loop had only
reached step 0 — contradicting that every index that would be marked
missed was already marked the first time the index was detected. -/
theorem c7_counterexample :
    (4 : Int) ∈ afterFirstDetect4.detected_steps_cumulative ∧
    afterFirstDetect4.step_status 1 = some StepStatus.pending ∧
    (processParsed steps5 stepA afterFirstDetect4 (some 4) true "a").1.step_status 1 =
      some StepStatus.missed := by
  decide

/-- C7 (amended): re-processing a detected index `d` that is already in
the cumulative set (match flag true) leaves the set unchanged — no
duplicate membership, same cardinality — and raises no `step_skipped`
alert (the cumulative path can never raise one); each status either
stays, or is `d` being re-stamped `detected`, or is one still-`pending`
index turning `missed`; and at most one index can newly turn `missed`
per pass, since the loop aborts after its first marking. -/
theorem c7_amended_idempotent_redetection (steps : List ProcStep) (e : ProcStep)
    (st : TrackerState) (d : Int) (analysis : String)
    (hd : d ∈ st.detected_steps_cumulative) :
    (processParsed steps e st (some d) true analysis).1.detected_steps_cumulative =
      st.detected_steps_cumulative ∧
    (∀ a ∈ (processParsed steps e st (some d) true analysis).2,
      a.alert_type ≠ "step_skipped") ∧
    (∀ i, (processParsed steps e st (some d) true analysis).1.step_status i =
        st.step_status i ∨
      (i = d ∧ (processParsed steps e st (some d) true analysis).1.step_status i =
        some StepStatus.detected) ∨
      (st.step_status i = some StepStatus.pending ∧
        (processParsed steps e st (some d) true analysis).1.step_status i =
          some StepStatus.missed)) ∧
    (∀ i j,
      st.step_status i = some StepStatus.pending →
      (processParsed steps e st (some d) true analysis).1.step_status i =
        some StepStatus.missed →
      st.step_status j = some StepStatus.pending →
      (processParsed steps e st (some d) true analysis).1.step_status j =
        some StepStatus.missed →
      i = j) := by
  rw [processParsed_some_true]
  dsimp only
  cases hg : pyGet steps d with
  | error u =>
    dsimp only
    refine ⟨setAdd_of_mem hd, fun a ha => absurd ha (List.not_mem_nil a), ?_, ?_⟩
    · intro i
      by_cases hi : i = d
      · subst hi
        exact Or.inr (Or.inl ⟨rfl, by simp [updMap]⟩)
      · exact Or.inl (by simp [updMap, hi])
    · intro i j hi1 hi2 hj1 hj2
      exfalso
      by_cases hi : i = d
      · subst hi; simp [updMap] at hi2
      · simp [updMap, hi] at hi2
        rw [hi1] at hi2
        simp at hi2
  | ok s0 =>
    dsimp only
    cases hq : firstQualifying d (setAdd st.detected_steps_cumulative d)
        (updMap st.step_status d (some StepStatus.detected)) with
    | none =>
      dsimp only
      refine ⟨setAdd_of_mem hd, ?_, ?_, ?_⟩
      · intro a ha
        rcases checkCompliance_alert_types analysis e a ha with h | h | h <;>
          · rw [h]; decide
      · intro i
        by_cases hi : i = d
        · subst hi
          exact Or.inr (Or.inl ⟨rfl, by simp [updMap]⟩)
        · exact Or.inl (by simp [updMap, hi])
      · intro i j hi1 hi2 hj1 hj2
        exfalso
        by_cases hi : i = d
        · subst hi; simp [updMap] at hi2
        · simp [updMap, hi] at hi2
          rw [hi1] at hi2
          simp at hi2
    | some i0 =>
      dsimp only
      have hq2 : (undetectedBefore d (setAdd st.detected_steps_cumulative d)).find?
          (fun i => decide (d - i > 2) &&
            (updMap st.step_status d (some StepStatus.detected) i ==
              some StepStatus.pending)) = some i0 := hq
      have hmem := List.mem_of_find?_eq_some hq2
      have hne : i0 ≠ d := by
        intro hcon
        have : i0 ∉ setAdd st.detected_steps_cumulative d :=
          of_decide_eq_true (List.mem_filter.mp hmem).2
        exact this (hcon ▸ mem_setAdd_self st.detected_steps_cumulative d)
      have hpend : st.step_status i0 = some StepStatus.pending := by
        have hp := List.find?_some hq2
        have hp2 := (Bool.and_eq_true _ _).mp hp
        have hp3 : updMap st.step_status d (some StepStatus.detected) i0 =
            some StepStatus.pending := by
          have := hp2.2
          simpa using this
        rw [updMap, if_neg hne] at hp3
        exact hp3
      refine ⟨setAdd_of_mem hd, fun a ha => absurd ha (List.not_mem_nil a), ?_, ?_⟩
      · intro i
        by_cases hii : i = i0
        · subst hii
          exact Or.inr (Or.inr ⟨hpend, by simp [updMap]⟩)
        · by_cases hi : i = d
          · subst hi
            exact Or.inr (Or.inl ⟨rfl, by simp [updMap, Ne.symm hne, hne]⟩)
          · exact Or.inl (by simp [updMap, hii, hi])
      · intro i j hi1 hi2 hj1 hj2
        have key : ∀ x, st.step_status x = some StepStatus.pending →
            updMap (updMap st.step_status d (some StepStatus.detected)) i0
              (some StepStatus.missed) x = some StepStatus.missed → x = i0 := by
          intro x hx1 hx2
          by_cases hxx : x = i0
          · exact hxx
          · exfalso
            by_cases hxd : x = d
            · subst hxd
              simp [updMap, hxx] at hx2
            · simp [updMap, hxx, hxd] at hx2
              rw [hx1] at hx2
              simp at hx2
        rw [key i hi1 hi2, key j hj1 hj2]

/-- Witness for C7 (amended) re-detecting index 4 over the five-step
fixture. -/
theorem c7_witness :
    (4 : Int) ∈ afterFirstDetect4.detected_steps_cumulative ∧
    (processParsed steps5 stepA afterFirstDetect4 (some 4) true "a").1.detected_steps_cumulative =
      afterFirstDetect4.detected_steps_cumulative :=
  ⟨by decide,
    (c7_amended_idempotent_redetection steps5 stepA afterFirstDetect4 4 "a" (by decide)).1⟩

/-! ## C9: no bounds check on the detected index -/

theorem detectedLine_error (steps : List ProcStep) (hist : Int → List String) (i : Int)
    (h : pyGet steps i = Except.error ()) : detectedLine steps hist i = Except.error () := by
  unfold detectedLine
  rw [h]
  rfl

theorem buildDetectedList_error_of_mem (steps : List ProcStep) (hist : Int → List String) :
    ∀ (l : List Int) (i : Int), i ∈ l → pyGet steps i = Except.error () →
      buildDetectedList steps hist l = Except.error () := by
  intro l
  induction l with
  | nil => intro i h; cases h
  | cons a rest ih =>
    intro i hmem herr
    rcases List.mem_cons.mp hmem with rfl | hmem2
    · unfold buildDetectedList
      rw [detectedLine_error steps hist i herr]
      rfl
    · unfold buildDetectedList
      cases hl : detectedLine steps hist a with
      | error u => rfl
      | ok line =>
        rw [ih i hmem2 herr]
        rfl

theorem buildContext_error_of_mem (steps : List ProcStep) (tr : TrackerState) (i : Int)
    (hmem : i ∈ tr.detected_steps_cumulative) (herr : pyGet steps i = Except.error ()) :
    exceptErrored (buildDetectedStepsContext steps tr) = true := by
  have hm2 : i ∈ List.insertionSort (· ≤ ·) tr.detected_steps_cumulative :=
    ((List.perm_insertionSort _ _).mem_iff).mpr hmem
  unfold buildDetectedStepsContext
  rw [buildDetectedList_error_of_mem steps tr.step_detection_history _ i hm2 herr]
  rfl

/-- A response reporting step number 0, which the parser maps to the
negative index `-1`. -/
def zeroText : String := "Detected Step: 0\nMatches Expected: yes"

/-- A response reporting step number 6 against a five-step procedure,
which the parser maps to the out-of-range index 5. -/
def outOfRangeText : String := "Detected Step: 6\nMatches Expected: yes"

/-- Tracker state after processing `zeroText` from the initial state. -/
def trNeg1 : TrackerState :=
  (processAnalysisResponse steps5 stepA (trackerInit steps5) zeroText).1

/-- Tracker state after processing `outOfRangeText` from the initial
state. -/
def trOut5 : TrackerState :=
  (processAnalysisResponse steps5 stepA (trackerInit steps5) outOfRangeText).1

/-- C9: `Detected Step: 0` parses to index `-1`, which is added to the
cumulative set and stamped `detected` with no bounds check; likewise
`Detected Step: 6` against five reference steps yields index 5, which is
added and retained, after which the prompt construction that indexes the
step list by every member of the set raises, for this and for every
subsequent chunk, whatever results are processed in between. -/
theorem c9_unvalidated_detected_index :
    parse_detected_step zeroText = some (-1) ∧
    ((-1 : Int) ∈ trNeg1.detected_steps_cumulative ∧
      trNeg1.step_status (-1) = some StepStatus.detected) ∧
    parse_detected_step outOfRangeText = some 5 ∧
    ((5 : Int) ∈ trOut5.detected_steps_cumulative ∧
      trOut5.step_status 5 = some StepStatus.detected) ∧
    exceptErrored (buildDetectedStepsContext steps5 trOut5) = true ∧
    (∀ rs, exceptErrored
      (buildDetectedStepsContext steps5 (processSeq steps5 stepA trOut5 rs)) = true) := by
  refine ⟨by decide, by decide, by decide, by decide, by decide, ?_⟩
  intro rs
  refine buildContext_error_of_mem steps5 _ 5 ?_ rfl
  exact processSeq_subset steps5 stepA rs trOut5 (by decide)

end LiveSurgery
